import Mathlib

/-
Shallow embedding of the BigUpload FastAPI upload service, translated from
src/packages/backend/python/src/bigupload_fastapi/service.py (class
UploadService, class FileMetadata), config.py (UploadConfig) and models.py.

Modelling choices:
- Byte strings are lists of naturals (`Bytes`).
- Python dicts (`_file_metadata`, `_hash_to_file`) are association lists with
  Python-dict update/lookup/delete semantics (`dictSet`, `dictGet`, `dictDel`).
- Python sets of ints (`uploaded_chunks`) are `Finset Nat`.
- The filesystem is split into the two disjoint directory families the code
  uses: per-upload chunk files (`chunkFiles fid i`, the file written by
  `get_chunk_file_path`) and the upload directory (`uploadFiles name`, the
  file written by `get_upload_file_path`).  `none` means the file is absent.
- `hashlib.sha256(...).hexdigest()` is modelled by an abstract deterministic
  digest function `hashFn : Bytes → String`, passed as a parameter; the
  service only ever compares digests for equality.
- `raise ValueError(...)` is `Except.error` with a constructor per distinct
  message; every operation returns the (possibly mutated) state plus its
  result, since the Python code mutates state before some raises.
-/

namespace BigUpload

/-- Byte strings, one natural per byte. -/
abbrev Bytes := List Nat

/-- Python-dict assignment `d[k] = v`: replace in place, append if absent. -/
def dictSet {α : Type} (l : List (String × α)) (k : String) (v : α) :
    List (String × α) :=
  match l with
  | [] => [(k, v)]
  | (k2, v2) :: rest =>
      if k2 = k then (k, v) :: rest else (k2, v2) :: dictSet rest k v

/-- Python-dict lookup `d.get(k)`. -/
def dictGet {α : Type} (l : List (String × α)) (k : String) : Option α :=
  match l with
  | [] => none
  | (k2, v2) :: rest => if k2 = k then some v2 else dictGet rest k

/-- Python-dict deletion `del d[k]` (keys are unique by construction). -/
def dictDel {α : Type} (l : List (String × α)) (k : String) :
    List (String × α) :=
  match l with
  | [] => []
  | (k2, v2) :: rest =>
      if k2 = k then rest else (k2, v2) :: dictDel rest k

/-- `FileMetadata.__init__` from service.py: per-upload session state. -/
structure FileMetadata where
  file_id : String
  file_name : String
  file_hash : String
  chunk_total : Nat
  uploaded_chunks : Finset Nat
  status : String
deriving DecidableEq

/-- The part of `UploadConfig` the service consults for URLs. -/
structure UploadConfig where
  base_url : String
  file_server_path : String
deriving DecidableEq

/-- `UploadConfig.get_file_url`. -/
def UploadConfig.get_file_url (c : UploadConfig) (filename : String) : String :=
  c.base_url ++ c.file_server_path ++ "/" ++ filename

/-- The service's in-memory dictionaries plus the filesystem it touches. -/
structure ServiceState where
  config : UploadConfig
  file_metadata : List (String × FileMetadata)
  hash_to_file : List (String × String)
  chunkFiles : String → Nat → Option Bytes
  uploadFiles : String → Option Bytes

/-- Python `str.rfind`: index of the last occurrence, `-1` if absent. -/
def rfindChar (p : List Char) (c : Char) : Int :=
  match p with
  | [] => -1
  | a :: rest =>
      let r := rfindChar rest c
      if r ≥ 0 then r + 1 else if a = c then 0 else -1

/-- The extension component of `os.path.splitext` (posixpath semantics):
the suffix from the last dot, provided that dot lies after the last `/`
and some earlier character of the basename is not a dot. -/
def splitextExt (p : List Char) : List Char :=
  let sepIndex := rfindChar p '/'
  let dotIndex := rfindChar p '.'
  if dotIndex > sepIndex then
    if (List.range p.length).any (fun j =>
        decide (sepIndex < (j : Int)) && decide ((j : Int) < dotIndex) &&
        (p.getD j '.' != '.')) then
      p.drop dotIndex.toNat
    else []
  else []

/-- `UploadService._get_file_extension`:
`os.path.splitext(filename)[1] if '.' in filename else ""`. -/
def get_file_extension (filename : String) : String :=
  if '.' ∈ filename.toList then String.mk (splitextExt filename.toList) else ""

/-- Upload response model (success and list-ordering of `uploadedChunks`
omitted; the chunk set is carried as a `Finset`). -/
structure UploadResponse where
  fileId : String
  chunkIndex : Nat
  uploadedChunks : Finset Nat
  message : String
deriving DecidableEq

/-- Verify request model (optional fields the service ignores are omitted). -/
structure VerifyRequest where
  fileId : String
  fileName : String
  fileHash : String
deriving DecidableEq

/-- Verify response model; `existsFlag` models the `exists` field. -/
structure VerifyResponse where
  fileId : String
  existsFlag : Bool
  finish : Bool
  uploadedChunks : Finset Nat
  url : Option String
  message : String
deriving DecidableEq

/-- Merge request model. -/
structure MergeRequest where
  fileId : String
  fileName : String
  fileHash : String
  chunkTotal : Nat
deriving DecidableEq

/-- Merge response model. -/
structure MergeResponse where
  fileId : String
  url : String
  message : String
deriving DecidableEq

/-- One constructor per distinct `ValueError` the service raises. -/
inductive UploadError where
  | chunkHashMismatch (expected actual : String)
  | unknownUpload (fileId : String)
  | incompleteChunks (got total : Nat)
  | missingChunkIndex (i : Nat)
  | missingChunkFile (fileId : String) (i : Nat)
  | fileHashMismatch (expected actual : String)
deriving DecidableEq

instance {ε α : Type} [DecidableEq ε] [DecidableEq α] :
    DecidableEq (Except ε α) := fun a b =>
  match a, b with
  | Except.error e1, Except.error e2 =>
      if h : e1 = e2 then isTrue (congrArg Except.error h)
      else isFalse (fun hc => h (Except.error.inj hc))
  | Except.ok a1, Except.ok a2 =>
      if h : a1 = a2 then isTrue (congrArg Except.ok h)
      else isFalse (fun hc => h (Except.ok.inj hc))
  | Except.error _, Except.ok _ => isFalse (fun hc => Except.noConfusion hc)
  | Except.ok _, Except.error _ => isFalse (fun hc => Except.noConfusion hc)

/-- `UploadService.upload_chunk`.  The chunk file is written first; if a
non-empty `chunk_hash` is supplied and does not match the recomputed digest,
the chunk file is removed and the call raises, leaving `uploaded_chunks`
untouched; otherwise `chunk_index` is added.  (Python's `if chunk_hash:` is
falsy on `None` and on the empty string.) -/
def upload_chunk (hashFn : Bytes → String) (s : ServiceState) (content : Bytes)
    (file_id file_name : String) (chunk_index chunk_total : Nat)
    (file_hash : String) (chunk_hash : Option String) :
    ServiceState × Except UploadError UploadResponse :=
  let metadata : FileMetadata :=
    match dictGet s.file_metadata file_id with
    | none =>
        { file_id := file_id, file_name := file_name, file_hash := file_hash,
          chunk_total := chunk_total, uploaded_chunks := ∅,
          status := "uploading" }
    | some md => md
  let fm := dictSet s.file_metadata file_id metadata
  let stored : String → Nat → Option Bytes := fun fid i =>
    if fid = file_id ∧ i = chunk_index then some content else s.chunkFiles fid i
  let md2 := { metadata with
    uploaded_chunks := insert chunk_index metadata.uploaded_chunks }
  let okResult : ServiceState × Except UploadError UploadResponse :=
    ({ s with file_metadata := dictSet fm file_id md2, chunkFiles := stored },
     Except.ok
       { fileId := file_id, chunkIndex := chunk_index,
         uploadedChunks := md2.uploaded_chunks,
         message := "分片 " ++ toString (chunk_index + 1) ++ "/" ++
           toString chunk_total ++ " 上传成功" })
  match chunk_hash with
  | none => okResult
  | some ch =>
      if ch = "" then okResult
      else
        let actual := hashFn content
        if actual = ch then okResult
        else
          ({ s with
              file_metadata := fm,
              chunkFiles := fun fid i =>
                if fid = file_id ∧ i = chunk_index then none
                else s.chunkFiles fid i },
           Except.error (UploadError.chunkHashMismatch ch actual))

/-- The uploaded-chunk set recorded for `fid`, `∅` when no session exists. -/
def uploadedOf (s : ServiceState) (fid : String) : Finset Nat :=
  match dictGet s.file_metadata fid with
  | some md => md.uploaded_chunks
  | none => ∅

/-- The chunk count the session under `fid` carries after a chunk-upload
declaring `nt`: the stored `chunk_total` when a session already exists
(`upload_chunk` keeps it), otherwise the declared `nt` (the value
`FileMetadata.__init__` fixes at creation). -/
def sessionChunkTotal (s : ServiceState) (fid : String) (nt : Nat) : Nat :=
  match dictGet s.file_metadata fid with
  | some md => md.chunk_total
  | none => nt

/-- `UploadService.verify_file`: an in-progress session under the requested
`fileId` wins first; then a completed artifact named by hash plus the
request's extension (instant transfer, which also records the hash mapping);
then an in-progress session with the same hash under another id; else
nothing. -/
def verify_file (s : ServiceState) (req : VerifyRequest) :
    ServiceState × VerifyResponse :=
  match dictGet s.file_metadata req.fileId with
  | some metadata =>
      (s, { fileId := req.fileId, existsFlag := false, finish := false,
            uploadedChunks := metadata.uploaded_chunks, url := none,
            message := "发现未完成的上传" })
  | none =>
      let target_filename := req.fileHash ++ get_file_extension req.fileName
      match s.uploadFiles target_filename with
      | some _ =>
          ({ s with hash_to_file :=
                dictSet s.hash_to_file req.fileHash target_filename },
           { fileId := req.fileId, existsFlag := true, finish := true,
             uploadedChunks := ∅,
             url := some (s.config.get_file_url target_filename),
             message := "文件已存在，秒传成功" })
      | none =>
          match s.file_metadata.find? (fun p =>
              p.2.file_hash == req.fileHash && p.2.file_id != req.fileId) with
          | some p =>
              (s, { fileId := p.2.file_id, existsFlag := false, finish := false,
                    uploadedChunks := p.2.uploaded_chunks, url := none,
                    message := "发现相同哈希值的未完成上传" })
          | none =>
              (s, { fileId := req.fileId, existsFlag := false, finish := false,
                    uploadedChunks := ∅, url := none,
                    message := "文件不存在，可以开始上传" })

/-- `UploadService._merge_chunk_files`: reads chunk files in the given index
order, returning the bytes written to the target so far and the first index
whose chunk file is absent (`none` when all were present).  On a missing
chunk the partially written prefix has already reached the target file. -/
def assembleChunks (cs : String → Nat → Option Bytes) (fid : String) :
    List Nat → Bytes × Option Nat
  | [] => ([], none)
  | i :: rest =>
      match cs fid i with
      | none => ([], some i)
      | some b =>
          let t := assembleChunks cs fid rest
          (b ++ t.1, t.2)

/-- `UploadService.merge_chunks`.  All decisions are driven by the request's
`chunkTotal`, `fileHash` and `fileName`; the stored session contributes only
its `uploaded_chunks` set.  On digest mismatch the freshly written target is
removed and the call raises with the session still registered; on success the
temp chunks are purged, the hash mapping recorded, and the session deleted. -/
def merge_chunks (hashFn : Bytes → String) (s : ServiceState)
    (req : MergeRequest) : ServiceState × Except UploadError MergeResponse :=
  match dictGet s.file_metadata req.fileId with
  | none => (s, Except.error (UploadError.unknownUpload req.fileId))
  | some metadata =>
      if metadata.uploaded_chunks.card ≠ req.chunkTotal then
        (s, Except.error (UploadError.incompleteChunks
              metadata.uploaded_chunks.card req.chunkTotal))
      else
        match (List.range req.chunkTotal).find? (fun i =>
            ! decide (i ∈ metadata.uploaded_chunks)) with
        | some i => (s, Except.error (UploadError.missingChunkIndex i))
        | none =>
            let target_filename :=
              req.fileHash ++ get_file_extension req.fileName
            let asm := assembleChunks s.chunkFiles req.fileId
              (List.range req.chunkTotal)
            match asm.2 with
            | some i =>
                ({ s with uploadFiles := fun f =>
                      if f = target_filename then some asm.1
                      else s.uploadFiles f },
                 Except.error (UploadError.missingChunkFile req.fileId i))
            | none =>
                let actual := hashFn asm.1
                if actual ≠ req.fileHash then
                  ({ s with uploadFiles := fun f =>
                        if f = target_filename then none
                        else s.uploadFiles f },
                   Except.error
                     (UploadError.fileHashMismatch req.fileHash actual))
                else
                  ({ s with
                      uploadFiles := fun f =>
                        if f = target_filename then some asm.1
                        else s.uploadFiles f,
                      chunkFiles := fun fid i =>
                        if fid = req.fileId then none else s.chunkFiles fid i,
                      hash_to_file :=
                        dictSet s.hash_to_file req.fileHash target_filename,
                      file_metadata := dictDel s.file_metadata req.fileId },
                   Except.ok
                     { fileId := req.fileId,
                       url := s.config.get_file_url target_filename,
                       message := "文件合并成功" })

/-- Performs one `upload_chunk` call (without a per-chunk hash) per index in
`order`, each sending `chunks.getD i []`, threading the state through. -/
def runUploads (hashFn : Bytes → String) (chunks : List Bytes)
    (fid fname fh : String) (n : Nat) :
    List Nat → ServiceState → ServiceState
  | [], s => s
  | i :: rest, s =>
      runUploads hashFn chunks fid fname fh n rest
        (upload_chunk hashFn s (chunks.getD i []) fid fname i n fh none).1

/-- Concatenation of a list of byte strings in list order. -/
def concatBytes (l : List Bytes) : Bytes :=
  l.foldr (fun a b => a ++ b) []

/-- Whether a merge outcome is the defensive missing-chunk-file failure. -/
def isMissingChunkFileErr : Except UploadError MergeResponse → Bool
  | Except.error (UploadError.missingChunkFile _ _) => true
  | _ => false

/-- Looking up the key just assigned returns the assigned value. -/
theorem dictGet_dictSet_self {α : Type} (l : List (String × α)) (k : String)
    (v : α) : dictGet (dictSet l k v) k = some v := by
  induction l with
  | nil => simp [dictSet, dictGet]
  | cons p rest ih =>
      obtain ⟨k2, v2⟩ := p
      by_cases h : k2 = k
      · simp [dictSet, dictGet, h]
      · simp [dictSet, dictGet, h, ih]

/-- Assigning a key twice keeps only the second assignment. -/
theorem dictSet_dictSet {α : Type} (l : List (String × α)) (k : String)
    (v w : α) : dictSet (dictSet l k v) k w = dictSet l k w := by
  induction l with
  | nil => simp [dictSet]
  | cons p rest ih =>
      obtain ⟨k2, v2⟩ := p
      by_cases h : k2 = k
      · simp [dictSet, h]
      · simp [dictSet, h, ih]

/-- Reassigning the value a key already holds leaves the dict unchanged. -/
theorem dictSet_eq_of_get {α : Type} (l : List (String × α)) (k : String)
    (v : α) (h : dictGet l k = some v) : dictSet l k v = l := by
  induction l with
  | nil => simp [dictGet] at h
  | cons p rest ih =>
      obtain ⟨k2, v2⟩ := p
      by_cases hk : k2 = k
      · simp [dictGet, hk] at h
        simp [dictSet, hk, h]
      · simp [dictGet, hk] at h
        simp [dictSet, hk, ih h]

/-- Deleting a freshly assigned, previously absent key restores the dict. -/
theorem dictDel_dictSet_of_get_none {α : Type} (l : List (String × α))
    (k : String) (v : α) (h : dictGet l k = none) :
    dictDel (dictSet l k v) k = l := by
  induction l with
  | nil => simp [dictSet, dictDel]
  | cons p rest ih =>
      obtain ⟨k2, v2⟩ := p
      by_cases hk : k2 = k
      · simp [dictGet, hk] at h
      · simp [dictGet, hk] at h
        simp [dictSet, dictDel, hk, ih h]

/-- Lookup after deleting a previously absent-then-assigned key. -/
theorem dictGet_dictDel_dictSet {α : Type} (l : List (String × α))
    (k : String) (v : α) (h : dictGet l k = none) :
    dictGet (dictDel (dictSet l k v) k) k = none := by
  rw [dictDel_dictSet_of_get_none l k v h]; exact h

/-- Reading indices whose positions are all within a list recovers the list. -/
theorem map_getD_range {α : Type} (l : List α) (d : α) :
    (List.range l.length).map (fun i => l.getD i d) = l := by
  induction l with
  | nil => simp
  | cons a t ih =>
      rw [List.length_cons, List.range_succ_eq_map, List.map_cons,
        List.map_map]
      have h2 : ((fun i => (a :: t).getD i d) ∘ Nat.succ) =
          fun i => t.getD i d := by
        funext i; simp [List.getD_cons_succ]
      rw [h2, ih]
      simp [List.getD_cons_zero]

/-- Assembling indices whose chunk files are all present yields their
concatenation and no error. -/
theorem assembleChunks_of_present (cs : String → Nat → Option Bytes)
    (fid : String) (g : Nat → Bytes) :
    ∀ idxs : List Nat, (∀ j ∈ idxs, cs fid j = some (g j)) →
    assembleChunks cs fid idxs = (concatBytes (idxs.map g), none) := by
  intro idxs
  induction idxs with
  | nil => intro _; rfl
  | cons i rest ih =>
      intro h
      have hi : cs fid i = some (g i) := h i (by simp)
      have hr := ih (fun j hj => h j (by simp [hj]))
      simp [assembleChunks, hi, hr, concatBytes, List.foldr]

/-- Assembling a list containing an index whose chunk file is absent
reports a missing chunk file. -/
theorem assembleChunks_snd_ne_none (cs : String → Nat → Option Bytes)
    (fid : String) (i : Nat) :
    ∀ idxs : List Nat, i ∈ idxs → cs fid i = none →
    (assembleChunks cs fid idxs).2 ≠ none := by
  intro idxs
  induction idxs with
  | nil => intro h; simp at h
  | cons a rest ih =>
      intro hmem hnone
      rcases List.mem_cons.mp hmem with rfl | hrest
      · simp [assembleChunks, hnone]
      · cases ha : cs fid a with
        | none => simp [assembleChunks, ha]
        | some b =>
            have := ih hrest hnone
            simpa [assembleChunks, ha] using this

/-- The defensive per-index scan finds nothing when every index below the
total is recorded. -/
theorem find?_range_none (A : Finset Nat) (n : Nat)
    (h : ∀ i < n, i ∈ A) :
    (List.range n).find? (fun i => ! decide (i ∈ A)) = none := by
  rw [List.find?_eq_none]
  intro i hi
  simp [h i (List.mem_range.mp hi)]

/-- Evaluation of a hashless chunk upload against an existing session:
the session gains the index, the chunk file is (over)written, and the call
succeeds. -/
theorem upload_chunk_found_spec (hashFn : Bytes → String) (s : ServiceState)
    (content : Bytes) (fid fname : String) (i nt : Nat) (fh : String)
    (md : FileMetadata) (hmd : dictGet s.file_metadata fid = some md) :
    upload_chunk hashFn s content fid fname i nt fh none =
      ({ s with
          file_metadata := dictSet s.file_metadata fid
            { md with uploaded_chunks := insert i md.uploaded_chunks },
          chunkFiles := fun fid2 j =>
            if fid2 = fid ∧ j = i then some content
            else s.chunkFiles fid2 j },
       Except.ok
         { fileId := fid, chunkIndex := i,
           uploadedChunks := insert i md.uploaded_chunks,
           message := "分片 " ++ toString (i + 1) ++ "/" ++
             toString nt ++ " 上传成功" }) := by
  unfold upload_chunk
  rw [hmd]
  simp [dictSet_dictSet]

/-- Evaluation of a hashless chunk upload with no session yet: a fresh
session holding just this index is registered. -/
theorem upload_chunk_fresh_spec (hashFn : Bytes → String) (s : ServiceState)
    (content : Bytes) (fid fname : String) (i nt : Nat) (fh : String)
    (hmd : dictGet s.file_metadata fid = none) :
    upload_chunk hashFn s content fid fname i nt fh none =
      ({ s with
          file_metadata := dictSet s.file_metadata fid
            { file_id := fid, file_name := fname, file_hash := fh,
              chunk_total := nt, uploaded_chunks := {i},
              status := "uploading" },
          chunkFiles := fun fid2 j =>
            if fid2 = fid ∧ j = i then some content
            else s.chunkFiles fid2 j },
       Except.ok
         { fileId := fid, chunkIndex := i,
           uploadedChunks := {i},
           message := "分片 " ++ toString (i + 1) ++ "/" ++
             toString nt ++ " 上传成功" }) := by
  unfold upload_chunk
  rw [hmd]
  simp [dictSet_dictSet]

/-- Evaluation of a chunk upload whose supplied non-empty per-chunk hash
does not match the recomputed digest: the chunk file ends up deleted, the
call raises, and the recorded chunk set is exactly the pre-call one (the
session is still created first when absent). -/
theorem upload_chunk_badhash_spec (hashFn : Bytes → String) (s : ServiceState)
    (content : Bytes) (fid fname : String) (i nt : Nat) (fh ch : String)
    (hne : ch ≠ "") (hbad : hashFn content ≠ ch) :
    upload_chunk hashFn s content fid fname i nt fh (some ch) =
      ({ s with
          file_metadata := dictSet s.file_metadata fid
            (match dictGet s.file_metadata fid with
             | none =>
                 { file_id := fid, file_name := fname, file_hash := fh,
                   chunk_total := nt, uploaded_chunks := ∅,
                   status := "uploading" }
             | some md => md),
          chunkFiles := fun fid2 j =>
            if fid2 = fid ∧ j = i then none
            else s.chunkFiles fid2 j },
       Except.error (UploadError.chunkHashMismatch ch (hashFn content))) := by
  unfold upload_chunk
  simp [hne, hbad]

/-- Effect of a batch of hashless uploads on an already-registered session:
the recorded set grows by the batch's indices, each uploaded chunk file holds
its payload, and the rest of the state is untouched. -/
theorem runUploads_spec (hashFn : Bytes → String) (chunks : List Bytes)
    (fid fname fh : String) (n : Nat) :
    ∀ (order : List Nat) (s : ServiceState) (md : FileMetadata),
    dictGet s.file_metadata fid = some md →
    (runUploads hashFn chunks fid fname fh n order s).file_metadata
        = dictSet s.file_metadata fid
            { md with uploaded_chunks := md.uploaded_chunks ∪ order.toFinset }
    ∧ (∀ j, (runUploads hashFn chunks fid fname fh n order s).chunkFiles fid j
        = if j ∈ order then some (chunks.getD j [])
          else s.chunkFiles fid j)
    ∧ (runUploads hashFn chunks fid fname fh n order s).uploadFiles
        = s.uploadFiles
    ∧ (runUploads hashFn chunks fid fname fh n order s).hash_to_file
        = s.hash_to_file
    ∧ (runUploads hashFn chunks fid fname fh n order s).config = s.config := by
  intro order
  induction order with
  | nil =>
      intro s md hmd
      refine ⟨?_, by simp [runUploads], by rfl, by rfl, by rfl⟩
      have h1 : ({ md with
          uploaded_chunks := md.uploaded_chunks ∪ ([] : List Nat).toFinset })
          = md := by
        simp
      rw [runUploads, h1, dictSet_eq_of_get _ _ _ hmd]
  | cons i rest ih =>
      intro s md hmd
      rw [runUploads]
      rw [upload_chunk_found_spec hashFn s (chunks.getD i []) fid fname i n fh
        md hmd]
      have hmd2 : dictGet (dictSet s.file_metadata fid
          { md with uploaded_chunks := insert i md.uploaded_chunks })
          fid = some { md with uploaded_chunks := insert i md.uploaded_chunks }
          := dictGet_dictSet_self _ _ _
      obtain ⟨h1, h2, h3, h4, h5⟩ := ih
        { s with
            file_metadata := dictSet s.file_metadata fid
              { md with uploaded_chunks := insert i md.uploaded_chunks },
            chunkFiles := fun fid2 j =>
              if fid2 = fid ∧ j = i then some (chunks.getD i [])
              else s.chunkFiles fid2 j }
        { md with uploaded_chunks := insert i md.uploaded_chunks }
        hmd2
      refine ⟨?_, ?_, h3, h4, h5⟩
      · rw [h1, dictSet_dictSet]
        have : insert i md.uploaded_chunks ∪ rest.toFinset
            = md.uploaded_chunks ∪ (i :: rest).toFinset := by
          simp [Finset.insert_union, Finset.union_insert]
        simp only [this]
      · intro j
        rw [h2 j]
        by_cases hjr : j ∈ rest
        · simp [hjr]
        · by_cases hji : j = i
          · subst hji
            simp [hjr]
          · simp [hjr, hji]

/-- Evaluation of a merge whose request total matches the recorded set, with
every indexed chunk file present and the assembled digest matching the
request's hash: the artifact (named by the request's hash and extension) is
written, temp chunks purged, the hash mapping recorded, the session deleted,
and the request's URL returned. -/
theorem merge_chunks_ok_spec (hashFn : Bytes → String) (s : ServiceState)
    (req : MergeRequest) (md : FileMetadata) (g : Nat → Bytes)
    (hget : dictGet s.file_metadata req.fileId = some md)
    (hcard : md.uploaded_chunks.card = req.chunkTotal)
    (hall : ∀ i < req.chunkTotal, i ∈ md.uploaded_chunks)
    (hchunks : ∀ j < req.chunkTotal, s.chunkFiles req.fileId j = some (g j))
    (hhash : hashFn (concatBytes ((List.range req.chunkTotal).map g))
      = req.fileHash) :
    merge_chunks hashFn s req =
      ({ s with
          uploadFiles := fun f =>
            if f = req.fileHash ++ get_file_extension req.fileName
            then some (concatBytes ((List.range req.chunkTotal).map g))
            else s.uploadFiles f,
          chunkFiles := fun fid i =>
            if fid = req.fileId then none else s.chunkFiles fid i,
          hash_to_file := dictSet s.hash_to_file req.fileHash
            (req.fileHash ++ get_file_extension req.fileName),
          file_metadata := dictDel s.file_metadata req.fileId },
       Except.ok
         { fileId := req.fileId,
           url := s.config.get_file_url
             (req.fileHash ++ get_file_extension req.fileName),
           message := "文件合并成功" }) := by
  have hasm := assembleChunks_of_present s.chunkFiles req.fileId g
    (List.range req.chunkTotal) (fun j hj => hchunks j (List.mem_range.mp hj))
  have hfind := find?_range_none md.uploaded_chunks req.chunkTotal hall
  unfold merge_chunks
  rw [hget]
  simp [hcard, hfind, hasm, hhash]

/-- Evaluation of a merge that assembles completely but whose digest does not
match the request's hash: the just-written artifact is removed again, the
call raises, and the dictionaries (including the session registry) are left
exactly as they were. -/
theorem merge_chunks_mismatch_spec (hashFn : Bytes → String)
    (s : ServiceState) (req : MergeRequest) (md : FileMetadata)
    (g : Nat → Bytes)
    (hget : dictGet s.file_metadata req.fileId = some md)
    (hcard : md.uploaded_chunks.card = req.chunkTotal)
    (hall : ∀ i < req.chunkTotal, i ∈ md.uploaded_chunks)
    (hchunks : ∀ j < req.chunkTotal, s.chunkFiles req.fileId j = some (g j))
    (hhash : hashFn (concatBytes ((List.range req.chunkTotal).map g))
      ≠ req.fileHash) :
    merge_chunks hashFn s req =
      ({ s with
          uploadFiles := fun f =>
            if f = req.fileHash ++ get_file_extension req.fileName
            then none else s.uploadFiles f },
       Except.error (UploadError.fileHashMismatch req.fileHash
         (hashFn (concatBytes ((List.range req.chunkTotal).map g))))) := by
  have hasm := assembleChunks_of_present s.chunkFiles req.fileId g
    (List.range req.chunkTotal) (fun j hj => hchunks j (List.mem_range.mp hj))
  have hfind := find?_range_none md.uploaded_chunks req.chunkTotal hall
  unfold merge_chunks
  rw [hget]
  simp [hcard, hfind, hasm, hhash]

/-- Evaluation of a merge whose completeness checks pass while some indexed
chunk file is absent from disk: the call raises the defensive
missing-chunk-file error and the session registry is untouched. -/
theorem merge_chunks_missing_spec (hashFn : Bytes → String)
    (s : ServiceState) (req : MergeRequest) (md : FileMetadata) (i : Nat)
    (hget : dictGet s.file_metadata req.fileId = some md)
    (hcard : md.uploaded_chunks.card = req.chunkTotal)
    (hall : ∀ j < req.chunkTotal, j ∈ md.uploaded_chunks)
    (hi : i < req.chunkTotal)
    (hnone : s.chunkFiles req.fileId i = none) :
    isMissingChunkFileErr (merge_chunks hashFn s req).2 = true
    ∧ (merge_chunks hashFn s req).1.file_metadata = s.file_metadata := by
  have hfind := find?_range_none md.uploaded_chunks req.chunkTotal hall
  have hne := assembleChunks_snd_ne_none s.chunkFiles req.fileId i
    (List.range req.chunkTotal) (List.mem_range.mpr hi) hnone
  rcases hasm : (assembleChunks s.chunkFiles req.fileId
      (List.range req.chunkTotal)).2 with _ | j
  · exact absurd hasm hne
  · constructor
    · unfold merge_chunks
      rw [hget]
      simp [hcard, hfind, hasm, isMissingChunkFileErr]
    · unfold merge_chunks
      rw [hget]
      simp [hcard, hfind, hasm]

/-- Default config used by concrete runs (the router's defaults). -/
def cfg0 : UploadConfig :=
  { base_url := "http://localhost:8000", file_server_path := "/files" }

/-- A freshly constructed service: empty dictionaries, empty directories. -/
def state0 : ServiceState :=
  { config := cfg0, file_metadata := [], hash_to_file := [],
    chunkFiles := fun _ _ => none, uploadFiles := fun _ => none }

/-- A concrete stand-in digest function for closed runs. -/
def hashLen : Bytes → String := fun b => "h" ++ toString b.length

/-- C1: for every chunk count `n ≥ 1` and list of `n` chunk payloads whose
declared content hash is the digest of their concatenation, uploading all `n`
chunks in any index order (with arbitrary in-range duplicate retries) and
then merging succeeds: the artifact stored under the hash-derived name is the
concatenation of the chunks in ascending index order (so its recomputed
digest is the declared hash), the advertised URL is returned, and the session
is removed from the registry. -/
theorem c1_upload_all_then_merge_ok (hashFn : Bytes → String)
    (chunks : List Bytes) (fid fname mname : String) (n : Nat)
    (order : List Nat) (s0 : ServiceState)
    (hn : 1 ≤ n) (hlen : chunks.length = n)
    (hmem : ∀ i ∈ order, i < n) (hcov : ∀ i < n, i ∈ order)
    (hfresh : dictGet s0.file_metadata fid = none) :
    (merge_chunks hashFn
        (runUploads hashFn chunks fid fname (hashFn (concatBytes chunks)) n
          order s0)
        { fileId := fid, fileName := mname,
          fileHash := hashFn (concatBytes chunks), chunkTotal := n }).2
      = Except.ok
        { fileId := fid,
          url := s0.config.get_file_url (hashFn (concatBytes chunks) ++
            get_file_extension mname),
          message := "文件合并成功" }
    ∧ (merge_chunks hashFn
        (runUploads hashFn chunks fid fname (hashFn (concatBytes chunks)) n
          order s0)
        { fileId := fid, fileName := mname,
          fileHash := hashFn (concatBytes chunks), chunkTotal := n }).1.uploadFiles
        (hashFn (concatBytes chunks) ++ get_file_extension mname)
      = some (concatBytes chunks)
    ∧ dictGet (merge_chunks hashFn
        (runUploads hashFn chunks fid fname (hashFn (concatBytes chunks)) n
          order s0)
        { fileId := fid, fileName := mname,
          fileHash := hashFn (concatBytes chunks), chunkTotal := n }).1.file_metadata
        fid
      = none := by
  cases order with
  | nil => exact absurd (hcov 0 hn) (List.not_mem_nil 0)
  | cons o os =>
    have hmapg : (List.range n).map (fun j => chunks.getD j []) = chunks := by
      rw [← hlen]; exact map_getD_range chunks []
    have hfirst := upload_chunk_fresh_spec hashFn s0 (chunks.getD o []) fid
      fname o n (hashFn (concatBytes chunks)) hfresh
    set t := (upload_chunk hashFn s0 (chunks.getD o []) fid fname o n
      (hashFn (concatBytes chunks)) none).1 with ht
    have htval : t = { s0 with
        file_metadata := dictSet s0.file_metadata fid
          { file_id := fid, file_name := fname,
            file_hash := hashFn (concatBytes chunks),
            chunk_total := n, uploaded_chunks := {o},
            status := "uploading" },
        chunkFiles := fun fid2 j =>
          if fid2 = fid ∧ j = o then some (chunks.getD o [])
          else s0.chunkFiles fid2 j } := by
      rw [ht, hfirst]
    have hmd1 : dictGet t.file_metadata fid = some
        { file_id := fid, file_name := fname,
          file_hash := hashFn (concatBytes chunks),
          chunk_total := n, uploaded_chunks := {o},
          status := "uploading" } := by
      rw [htval]; exact dictGet_dictSet_self _ _ _
    obtain ⟨H1, H2, H3, H4, H5⟩ := runUploads_spec hashFn chunks fid fname
      (hashFn (concatBytes chunks)) n os t _ hmd1
    have hrun : runUploads hashFn chunks fid fname
        (hashFn (concatBytes chunks)) n (o :: os) s0
        = runUploads hashFn chunks fid fname
          (hashFn (concatBytes chunks)) n os t := by
      rw [runUploads]
    rw [hrun]
    set s1 := runUploads hashFn chunks fid fname
      (hashFn (concatBytes chunks)) n os t with hs1
    have hSet : ({o} : Finset Nat) ∪ os.toFinset = Finset.range n := by
      ext i
      simp only [Finset.mem_union, Finset.mem_singleton, List.mem_toFinset,
        Finset.mem_range]
      constructor
      · rintro (rfl | h)
        · exact hmem i (by simp)
        · exact hmem i (by simp [h])
      · intro h
        have := hcov i h
        rcases List.mem_cons.mp this with rfl | h2
        · exact Or.inl rfl
        · exact Or.inr h2
    have hSet2 : ({ file_id := fid, file_name := fname,
                    file_hash := hashFn (concatBytes chunks),
                    chunk_total := n,
                    uploaded_chunks := {o},
                    status := "uploading" } :
          FileMetadata).uploaded_chunks ∪ os.toFinset
        = Finset.range n := hSet
    have hget1 : dictGet s1.file_metadata fid = some
        { file_id := fid, file_name := fname,
          file_hash := hashFn (concatBytes chunks),
          chunk_total := n, uploaded_chunks := Finset.range n,
          status := "uploading" } := by
      rw [H1]
      rw [hSet2]
      exact dictGet_dictSet_self _ _ _
    have hchunks : ∀ j < n, s1.chunkFiles fid j = some (chunks.getD j []) := by
      intro j hj
      rw [H2 j]
      by_cases hjr : j ∈ os
      · simp [hjr]
      · have : j = o := by
          rcases List.mem_cons.mp (hcov j hj) with rfl | h2
          · rfl
          · exact absurd h2 hjr
        subst this
        rw [htval]
        simp [hjr]
    have hmain := merge_chunks_ok_spec hashFn s1
      { fileId := fid, fileName := mname,
        fileHash := hashFn (concatBytes chunks), chunkTotal := n }
      { file_id := fid, file_name := fname,
        file_hash := hashFn (concatBytes chunks),
        chunk_total := n, uploaded_chunks := Finset.range n,
        status := "uploading" }
      (fun j => chunks.getD j []) hget1 (by simp)
      (by intro i hi; simpa using hi) hchunks (by rw [hmapg])
    have hcfg : s1.config = s0.config := by rw [H5, htval]
    refine ⟨?_, ?_, ?_⟩
    · rw [hmain]
      simp [hcfg]
    · rw [hmain]
      simp
      have h2 := map_getD_range chunks []
      simp only [List.getD_eq_getElem?_getD] at h2
      exact congrArg concatBytes (by rw [← hlen]; exact h2)
    · rw [hmain]
      have hfm : s1.file_metadata = dictSet s0.file_metadata fid
          { file_id := fid, file_name := fname,
            file_hash := hashFn (concatBytes chunks),
            chunk_total := n, uploaded_chunks := Finset.range n,
            status := "uploading" } := by
        rw [H1, htval]
        simp only [dictSet_dictSet]
        rw [hSet2]
      show dictGet (dictDel s1.file_metadata fid) fid = none
      rw [hfm]
      exact dictGet_dictDel_dictSet _ _ _ hfresh

/-- C1 witness: three chunks uploaded in order 1,0,2 with a duplicate retry
of index 1, then merged. -/
theorem c1_upload_all_then_merge_ok_witness :
    (merge_chunks hashLen
        (runUploads hashLen [[65,65,65],[66,66,66],[67,67,67]] "f" "a.txt"
          (hashLen (concatBytes [[65,65,65],[66,66,66],[67,67,67]])) 3
          [1,0,2,1] state0)
        { fileId := "f", fileName := "a.txt",
          fileHash := hashLen (concatBytes [[65,65,65],[66,66,66],[67,67,67]]),
          chunkTotal := 3 }).2
      = Except.ok
        { fileId := "f",
          url := state0.config.get_file_url
            (hashLen (concatBytes [[65,65,65],[66,66,66],[67,67,67]]) ++
              get_file_extension "a.txt"),
          message := "文件合并成功" }
    ∧ (merge_chunks hashLen
        (runUploads hashLen [[65,65,65],[66,66,66],[67,67,67]] "f" "a.txt"
          (hashLen (concatBytes [[65,65,65],[66,66,66],[67,67,67]])) 3
          [1,0,2,1] state0)
        { fileId := "f", fileName := "a.txt",
          fileHash := hashLen (concatBytes [[65,65,65],[66,66,66],[67,67,67]]),
          chunkTotal := 3 }).1.uploadFiles
        (hashLen (concatBytes [[65,65,65],[66,66,66],[67,67,67]]) ++
          get_file_extension "a.txt")
      = some (concatBytes [[65,65,65],[66,66,66],[67,67,67]])
    ∧ dictGet (merge_chunks hashLen
        (runUploads hashLen [[65,65,65],[66,66,66],[67,67,67]] "f" "a.txt"
          (hashLen (concatBytes [[65,65,65],[66,66,66],[67,67,67]])) 3
          [1,0,2,1] state0)
        { fileId := "f", fileName := "a.txt",
          fileHash := hashLen (concatBytes [[65,65,65],[66,66,66],[67,67,67]]),
          chunkTotal := 3 }).1.file_metadata
        "f"
      = none :=
  c1_upload_all_then_merge_ok hashLen [[65,65,65],[66,66,66],[67,67,67]]
    "f" "a.txt" "a.txt" 3 [1,0,2,1] state0 (by decide) (by decide)
    (by decide) (by decide) (by decide)

/-- Merge with no session registered under the request's id. -/
theorem merge2_unknown (hashFn : Bytes → String) (s : ServiceState)
    (req : MergeRequest)
    (hget : dictGet s.file_metadata req.fileId = none) :
    merge_chunks hashFn s req
      = (s, Except.error (UploadError.unknownUpload req.fileId)) := by
  unfold merge_chunks
  rw [hget]

/-- Merge when the recorded set's size differs from the request's total. -/
theorem merge2_incomplete (hashFn : Bytes → String) (s : ServiceState)
    (req : MergeRequest) (md : FileMetadata)
    (hget : dictGet s.file_metadata req.fileId = some md)
    (hcard : md.uploaded_chunks.card ≠ req.chunkTotal) :
    merge_chunks hashFn s req
      = (s, Except.error (UploadError.incompleteChunks
          md.uploaded_chunks.card req.chunkTotal)) := by
  unfold merge_chunks
  rw [hget]
  simp [hcard]

/-- Merge when the defensive index scan finds an unrecorded index. -/
theorem merge2_missing_index (hashFn : Bytes → String) (s : ServiceState)
    (req : MergeRequest) (md : FileMetadata) (i : Nat)
    (hget : dictGet s.file_metadata req.fileId = some md)
    (hcard : md.uploaded_chunks.card = req.chunkTotal)
    (hfind : (List.range req.chunkTotal).find?
      (fun i => ! decide (i ∈ md.uploaded_chunks)) = some i) :
    merge_chunks hashFn s req
      = (s, Except.error (UploadError.missingChunkIndex i)) := by
  unfold merge_chunks
  rw [hget]
  simp [hcard, hfind]

/-- Merge when assembly stops at an absent chunk file: the partial prefix has
reached the target file and the call raises. -/
theorem merge2_missing_file (hashFn : Bytes → String) (s : ServiceState)
    (req : MergeRequest) (md : FileMetadata) (j : Nat)
    (hget : dictGet s.file_metadata req.fileId = some md)
    (hcard : md.uploaded_chunks.card = req.chunkTotal)
    (hfind : (List.range req.chunkTotal).find?
      (fun i => ! decide (i ∈ md.uploaded_chunks)) = none)
    (hasm : (assembleChunks s.chunkFiles req.fileId
      (List.range req.chunkTotal)).2 = some j) :
    merge_chunks hashFn s req
      = ({ s with uploadFiles := fun f =>
            if f = req.fileHash ++ get_file_extension req.fileName
            then some (assembleChunks s.chunkFiles req.fileId
              (List.range req.chunkTotal)).1
            else s.uploadFiles f },
         Except.error (UploadError.missingChunkFile req.fileId j)) := by
  unfold merge_chunks
  rw [hget]
  simp [hcard, hfind, hasm]

/-- Merge when assembly completes but the digest disagrees with the
request's hash. -/
theorem merge2_hashfail (hashFn : Bytes → String) (s : ServiceState)
    (req : MergeRequest) (md : FileMetadata)
    (hget : dictGet s.file_metadata req.fileId = some md)
    (hcard : md.uploaded_chunks.card = req.chunkTotal)
    (hfind : (List.range req.chunkTotal).find?
      (fun i => ! decide (i ∈ md.uploaded_chunks)) = none)
    (hasm : (assembleChunks s.chunkFiles req.fileId
      (List.range req.chunkTotal)).2 = none)
    (hhash : hashFn (assembleChunks s.chunkFiles req.fileId
      (List.range req.chunkTotal)).1 ≠ req.fileHash) :
    merge_chunks hashFn s req
      = ({ s with uploadFiles := fun f =>
            if f = req.fileHash ++ get_file_extension req.fileName
            then none else s.uploadFiles f },
         Except.error (UploadError.fileHashMismatch req.fileHash
           (hashFn (assembleChunks s.chunkFiles req.fileId
             (List.range req.chunkTotal)).1))) := by
  unfold merge_chunks
  rw [hget]
  simp [hcard, hfind, hasm, hhash]

/-- Merge when every check passes. -/
theorem merge2_success (hashFn : Bytes → String) (s : ServiceState)
    (req : MergeRequest) (md : FileMetadata)
    (hget : dictGet s.file_metadata req.fileId = some md)
    (hcard : md.uploaded_chunks.card = req.chunkTotal)
    (hfind : (List.range req.chunkTotal).find?
      (fun i => ! decide (i ∈ md.uploaded_chunks)) = none)
    (hasm : (assembleChunks s.chunkFiles req.fileId
      (List.range req.chunkTotal)).2 = none)
    (hhash : hashFn (assembleChunks s.chunkFiles req.fileId
      (List.range req.chunkTotal)).1 = req.fileHash) :
    merge_chunks hashFn s req
      = ({ s with
            uploadFiles := fun f =>
              if f = req.fileHash ++ get_file_extension req.fileName
              then some (assembleChunks s.chunkFiles req.fileId
                (List.range req.chunkTotal)).1
              else s.uploadFiles f,
            chunkFiles := fun fid i =>
              if fid = req.fileId then none else s.chunkFiles fid i,
            hash_to_file := dictSet s.hash_to_file req.fileHash
              (req.fileHash ++ get_file_extension req.fileName),
            file_metadata := dictDel s.file_metadata req.fileId },
         Except.ok
           { fileId := req.fileId,
             url := s.config.get_file_url
               (req.fileHash ++ get_file_extension req.fileName),
             message := "文件合并成功" }) := by
  unfold merge_chunks
  rw [hget]
  simp [hcard, hfind, hasm, hhash]

/-- Inversion of a successful merge: the artifact sits in the upload store
under the request's hash-derived name, the returned URL points at it, and
the config is untouched. -/
theorem merge_chunks_ok_inv (hashFn : Bytes → String) (s : ServiceState)
    (req : MergeRequest) (resp : MergeResponse)
    (hok : (merge_chunks hashFn s req).2 = Except.ok resp) :
    (merge_chunks hashFn s req).1.uploadFiles
        (req.fileHash ++ get_file_extension req.fileName)
      = some (assembleChunks s.chunkFiles req.fileId
          (List.range req.chunkTotal)).1
    ∧ resp.url = s.config.get_file_url
        (req.fileHash ++ get_file_extension req.fileName)
    ∧ (merge_chunks hashFn s req).1.config = s.config := by
  rcases hget : dictGet s.file_metadata req.fileId with _ | md
  · rw [merge2_unknown hashFn s req hget] at hok
    exact Except.noConfusion hok
  · by_cases hcard : md.uploaded_chunks.card = req.chunkTotal
    case neg =>
      rw [merge2_incomplete hashFn s req md hget hcard] at hok
      exact Except.noConfusion hok
    case pos =>
      rcases hfind : (List.range req.chunkTotal).find?
          (fun i => ! decide (i ∈ md.uploaded_chunks)) with _ | i
      case some =>
        rw [merge2_missing_index hashFn s req md i hget hcard hfind] at hok
        exact Except.noConfusion hok
      case none =>
        rcases hasm : (assembleChunks s.chunkFiles req.fileId
            (List.range req.chunkTotal)).2 with _ | j
        case some =>
          rw [merge2_missing_file hashFn s req md j hget hcard hfind hasm]
            at hok
          exact Except.noConfusion hok
        case none =>
          by_cases hhash : hashFn (assembleChunks s.chunkFiles req.fileId
              (List.range req.chunkTotal)).1 = req.fileHash
          case neg =>
            rw [merge2_hashfail hashFn s req md hget hcard hfind hasm hhash]
              at hok
            exact Except.noConfusion hok
          case pos =>
            rw [merge2_success hashFn s req md hget hcard hfind hasm hhash]
              at hok ⊢
            refine ⟨by simp, ?_, rfl⟩
            have := Except.ok.inj hok
            rw [← this]

/-- C2 counterexample: uploading chunk index 5 for a fresh session whose
chunk count is thereby fixed at 2 succeeds and records 5, leaving a
registered session whose stored `chunk_total` is 2 while `5 ∈
receivedChunks` — so the call is not rejected with any
`ChunkIndexOutOfRange` and `receivedChunks ⊆ [0, chunkCount)` is violated. -/
theorem c2_out_of_range_accepted_cex :
    (upload_chunk hashLen state0 [65] "f" "a.txt" 5 2 "H" none).2.isOk = true
    ∧ (dictGet (upload_chunk hashLen state0 [65] "f" "a.txt" 5 2 "H"
        none).1.file_metadata "f").map FileMetadata.chunk_total = some 2
    ∧ 5 ∈ uploadedOf
        (upload_chunk hashLen state0 [65] "f" "a.txt" 5 2 "H" none).1 "f"
    ∧ ¬ (5 < 2) := by decide

/-- C2 amended: `upload_chunk` performs no chunk-index validation — a
hashless chunk-upload whose index is at or beyond the session's chunk count
(the stored count for an existing session, the declared count when this call
creates the session) still succeeds and adds the index, leaving a registered
session whose recorded set contains an index no smaller than its own
`chunk_total`, i.e. `receivedChunks ⊆ [0, chunkCount)` is not an invariant
and no `ChunkIndexOutOfRange` error exists. -/
theorem c2_no_range_check (hashFn : Bytes → String) (s : ServiceState)
    (content : Bytes) (fid fname : String) (i nt : Nat) (fh : String)
    (hout : sessionChunkTotal s fid nt ≤ i) :
    (upload_chunk hashFn s content fid fname i nt fh none).2.isOk = true
    ∧ i ∈ uploadedOf
        (upload_chunk hashFn s content fid fname i nt fh none).1 fid
    ∧ (dictGet (upload_chunk hashFn s content fid fname i nt fh
        none).1.file_metadata fid).map FileMetadata.chunk_total
      = some (sessionChunkTotal s fid nt)
    ∧ sessionChunkTotal s fid nt ≤ i := by
  cases hmd : dictGet s.file_metadata fid with
  | none =>
      rw [upload_chunk_fresh_spec hashFn s content fid fname i nt fh hmd]
      refine ⟨rfl, ?_, ?_, hout⟩
      · simp [uploadedOf, dictGet_dictSet_self]
      · simp [dictGet_dictSet_self, sessionChunkTotal, hmd]
  | some md =>
      rw [upload_chunk_found_spec hashFn s content fid fname i nt fh md hmd]
      refine ⟨rfl, ?_, ?_, hout⟩
      · simp [uploadedOf, dictGet_dictSet_self]
      · simp [dictGet_dictSet_self, sessionChunkTotal, hmd]

/-- C2 witness: index 7 against a fresh session created with chunk count 3:
the call succeeds and the session ends up with `chunk_total = 3` while
`7 ∈ receivedChunks`. -/
theorem c2_no_range_check_witness :
    (upload_chunk hashLen state0 [65] "g" "b.txt" 7 3 "H" none).2.isOk = true
    ∧ 7 ∈ uploadedOf
        (upload_chunk hashLen state0 [65] "g" "b.txt" 7 3 "H" none).1 "g"
    ∧ (dictGet (upload_chunk hashLen state0 [65] "g" "b.txt" 7 3 "H"
        none).1.file_metadata "g").map FileMetadata.chunk_total
      = some (sessionChunkTotal state0 "g" 3)
    ∧ sessionChunkTotal state0 "g" 3 ≤ 7 :=
  c2_no_range_check hashLen state0 [65] "g" "b.txt" 7 3 "H" (by decide)

/-- C3 counterexample: after a session is created with chunk count 2 and
hash "H1", a chunk-upload for the same id declaring chunk count 3 and hash
"H2" succeeds rather than failing with any `InconsistentSession` error (the
stored values simply stay as created). -/
theorem c3_inconsistent_redeclaration_accepted_cex :
    (upload_chunk hashLen
        (upload_chunk hashLen state0 [65] "f" "a.txt" 0 2 "H1" none).1
        [66] "f" "b.bin" 1 3 "H2" none).2.isOk = true
    ∧ (dictGet (upload_chunk hashLen
        (upload_chunk hashLen state0 [65] "f" "a.txt" 0 2 "H1" none).1
        [66] "f" "b.bin" 1 3 "H2" none).1.file_metadata "f").map
        FileMetadata.chunk_total = some 2
    ∧ (dictGet (upload_chunk hashLen
        (upload_chunk hashLen state0 [65] "f" "a.txt" 0 2 "H1" none).1
        [66] "f" "b.bin" 1 3 "H2" none).1.file_metadata "f").map
        FileMetadata.file_hash = some "H1" := by decide

/-- C3 amended: a chunk-upload for an existing `uploadID` is accepted no
matter what `chunkCount`/`contentHash` it declares; the declared values are
ignored and the session keeps the `chunk_total` and `file_hash` fixed at
creation (only the chunk set gains the new index). -/
theorem c3_redeclaration_ignored (hashFn : Bytes → String) (s : ServiceState)
    (content : Bytes) (fid fname : String) (i nt2 : Nat) (fh2 : String)
    (md : FileMetadata)
    (hmd : dictGet s.file_metadata fid = some md) :
    (upload_chunk hashFn s content fid fname i nt2 fh2 none).2.isOk = true
    ∧ dictGet (upload_chunk hashFn s content fid fname i nt2 fh2
        none).1.file_metadata fid
      = some { md with uploaded_chunks := insert i md.uploaded_chunks } := by
  rw [upload_chunk_found_spec hashFn s content fid fname i nt2 fh2 md hmd]
  exact ⟨rfl, dictGet_dictSet_self _ _ _⟩

/-- C3 witness: redeclaring count 3 and hash "H2" on a session created with
count 2 and hash "H1". -/
theorem c3_redeclaration_ignored_witness :
    (upload_chunk hashLen
        (upload_chunk hashLen state0 [65] "f" "a.txt" 0 2 "H1" none).1
        [66] "f" "b.bin" 1 3 "H2" none).2.isOk = true
    ∧ dictGet (upload_chunk hashLen
        (upload_chunk hashLen state0 [65] "f" "a.txt" 0 2 "H1" none).1
        [66] "f" "b.bin" 1 3 "H2" none).1.file_metadata "f"
      = some { file_id := "f", file_name := "a.txt", file_hash := "H1",
               chunk_total := 2, uploaded_chunks := insert 1 {0},
               status := "uploading" } :=
  c3_redeclaration_ignored hashLen
    (upload_chunk hashLen state0 [65] "f" "a.txt" 0 2 "H1" none).1
    [66] "f" "b.bin" 1 3 "H2"
    { file_id := "f", file_name := "a.txt", file_hash := "H1",
      chunk_total := 2, uploaded_chunks := {0}, status := "uploading" }
    (by decide)

/-- C4 counterexample: a one-chunk merge whose recomputed digest "h1"
differs from the declared hash "WRONG" raises the integrity error and
discards the artifact, but the session is NOT removed from the registry,
contradicting the claimed discard-session behaviour. -/
theorem c4_session_survives_integrity_failure_cex :
    (merge_chunks hashLen
        (upload_chunk hashLen state0 [65] "f" "a.txt" 0 1 "WRONG" none).1
        { fileId := "f", fileName := "a.txt", fileHash := "WRONG",
          chunkTotal := 1 }).2
      = Except.error (UploadError.fileHashMismatch "WRONG" "h1")
    ∧ dictGet (merge_chunks hashLen
        (upload_chunk hashLen state0 [65] "f" "a.txt" 0 1 "WRONG" none).1
        { fileId := "f", fileName := "a.txt", fileHash := "WRONG",
          chunkTotal := 1 }).1.file_metadata "f" ≠ none := by decide

/-- C4 amended: when the assembled digest differs from the merge request's
hash, merge raises the integrity error, the freshly written artifact is
removed, no dedup mapping is recorded — but the session registry is left
exactly as it was (the session is NOT discarded; the temp chunks also
remain). -/
theorem c4_integrity_failure_keeps_session (hashFn : Bytes → String)
    (s : ServiceState) (req : MergeRequest) (md : FileMetadata)
    (g : Nat → Bytes)
    (hget : dictGet s.file_metadata req.fileId = some md)
    (hcard : md.uploaded_chunks.card = req.chunkTotal)
    (hall : ∀ i < req.chunkTotal, i ∈ md.uploaded_chunks)
    (hchunks : ∀ j < req.chunkTotal, s.chunkFiles req.fileId j = some (g j))
    (hhash : hashFn (concatBytes ((List.range req.chunkTotal).map g))
      ≠ req.fileHash) :
    (merge_chunks hashFn s req).2
      = Except.error (UploadError.fileHashMismatch req.fileHash
          (hashFn (concatBytes ((List.range req.chunkTotal).map g))))
    ∧ (merge_chunks hashFn s req).1.uploadFiles
        (req.fileHash ++ get_file_extension req.fileName) = none
    ∧ (merge_chunks hashFn s req).1.hash_to_file = s.hash_to_file
    ∧ (merge_chunks hashFn s req).1.file_metadata = s.file_metadata
    ∧ (merge_chunks hashFn s req).1.chunkFiles = s.chunkFiles := by
  rw [merge_chunks_mismatch_spec hashFn s req md g hget hcard hall hchunks
    hhash]
  exact ⟨rfl, by simp, rfl, rfl, rfl⟩

/-- C4 witness: the "WRONG"-hash one-chunk merge. -/
theorem c4_integrity_failure_keeps_session_witness :
    (merge_chunks hashLen
        (upload_chunk hashLen state0 [65] "f" "a.txt" 0 1 "WRONG" none).1
        { fileId := "f", fileName := "a.txt", fileHash := "WRONG",
          chunkTotal := 1 }).2
      = Except.error (UploadError.fileHashMismatch "WRONG"
          (hashLen (concatBytes ((List.range 1).map (fun _ => [65])))))
    ∧ (merge_chunks hashLen
        (upload_chunk hashLen state0 [65] "f" "a.txt" 0 1 "WRONG" none).1
        { fileId := "f", fileName := "a.txt", fileHash := "WRONG",
          chunkTotal := 1 }).1.uploadFiles
        ("WRONG" ++ get_file_extension "a.txt") = none
    ∧ (merge_chunks hashLen
        (upload_chunk hashLen state0 [65] "f" "a.txt" 0 1 "WRONG" none).1
        { fileId := "f", fileName := "a.txt", fileHash := "WRONG",
          chunkTotal := 1 }).1.hash_to_file
      = (upload_chunk hashLen state0 [65] "f" "a.txt" 0 1 "WRONG"
          none).1.hash_to_file
    ∧ (merge_chunks hashLen
        (upload_chunk hashLen state0 [65] "f" "a.txt" 0 1 "WRONG" none).1
        { fileId := "f", fileName := "a.txt", fileHash := "WRONG",
          chunkTotal := 1 }).1.file_metadata
      = (upload_chunk hashLen state0 [65] "f" "a.txt" 0 1 "WRONG"
          none).1.file_metadata
    ∧ (merge_chunks hashLen
        (upload_chunk hashLen state0 [65] "f" "a.txt" 0 1 "WRONG" none).1
        { fileId := "f", fileName := "a.txt", fileHash := "WRONG",
          chunkTotal := 1 }).1.chunkFiles
      = (upload_chunk hashLen state0 [65] "f" "a.txt" 0 1 "WRONG"
          none).1.chunkFiles :=
  c4_integrity_failure_keeps_session hashLen
    (upload_chunk hashLen state0 [65] "f" "a.txt" 0 1 "WRONG" none).1
    { fileId := "f", fileName := "a.txt", fileHash := "WRONG",
      chunkTotal := 1 }
    { file_id := "f", file_name := "a.txt", file_hash := "WRONG",
      chunk_total := 1, uploaded_chunks := {0}, status := "uploading" }
    (fun _ => [65]) (by decide) (by decide) (by decide) (by decide)
    (by decide)

/-- C5 counterexample: after a successful merge of "a.txt" with hash "h1"
(artifact stored as "h1.txt"), a verify for the same hash but fileName
"a.bin" looks for "h1.bin" and reports `exists=false`, so verify is not
hash-only: the supplied fileName's extension changes the answer. -/
theorem c5_verify_depends_on_extension_cex :
    (merge_chunks hashLen
        (upload_chunk hashLen state0 [65] "f" "a.txt" 0 1 "h1" none).1
        { fileId := "f", fileName := "a.txt", fileHash := "h1",
          chunkTotal := 1 }).2.isOk = true
    ∧ (verify_file (merge_chunks hashLen
        (upload_chunk hashLen state0 [65] "f" "a.txt" 0 1 "h1" none).1
        { fileId := "f", fileName := "a.txt", fileHash := "h1",
          chunkTotal := 1 }).1
        { fileId := "g", fileName := "a.bin", fileHash := "h1" }).2.existsFlag
      = false := by decide

/-- C5 amended: after a successful merge, a verify for the same
`contentHash` reports `exists=true, finish=true` with the merge's artifact
URL — provided the verify's fileName has the merged fileName's extension
and its uploadID has no in-progress session (an in-progress session under
the supplied uploadID takes priority and reports `exists=false`; a fileName
with a different extension misses the artifact). -/
theorem c5_verify_after_merge (hashFn : Bytes → String) (s : ServiceState)
    (req : MergeRequest) (resp : MergeResponse) (v : VerifyRequest)
    (hok : (merge_chunks hashFn s req).2 = Except.ok resp)
    (hvh : v.fileHash = req.fileHash)
    (hve : get_file_extension v.fileName = get_file_extension req.fileName)
    (hvid : dictGet (merge_chunks hashFn s req).1.file_metadata v.fileId
      = none) :
    (verify_file (merge_chunks hashFn s req).1 v).2.existsFlag = true
    ∧ (verify_file (merge_chunks hashFn s req).1 v).2.finish = true
    ∧ (verify_file (merge_chunks hashFn s req).1 v).2.url = some resp.url := by
  obtain ⟨hup, hurl, hcfg⟩ := merge_chunks_ok_inv hashFn s req resp hok
  have htarget : v.fileHash ++ get_file_extension v.fileName
      = req.fileHash ++ get_file_extension req.fileName := by
    rw [hvh, hve]
  unfold verify_file
  rw [hvid]
  simp only [htarget, hup, hcfg]
  exact ⟨trivial, trivial, by rw [hurl]⟩

/-- C5 witness: verify under a fresh id "g" with a same-extension name
"b.txt" after the one-chunk merge of "a.txt". -/
theorem c5_verify_after_merge_witness :
    (verify_file (merge_chunks hashLen
        (upload_chunk hashLen state0 [65] "f" "a.txt" 0 1 "h1" none).1
        { fileId := "f", fileName := "a.txt", fileHash := "h1",
          chunkTotal := 1 }).1
        { fileId := "g", fileName := "b.txt", fileHash := "h1" }).2.existsFlag
      = true
    ∧ (verify_file (merge_chunks hashLen
        (upload_chunk hashLen state0 [65] "f" "a.txt" 0 1 "h1" none).1
        { fileId := "f", fileName := "a.txt", fileHash := "h1",
          chunkTotal := 1 }).1
        { fileId := "g", fileName := "b.txt", fileHash := "h1" }).2.finish
      = true
    ∧ (verify_file (merge_chunks hashLen
        (upload_chunk hashLen state0 [65] "f" "a.txt" 0 1 "h1" none).1
        { fileId := "f", fileName := "a.txt", fileHash := "h1",
          chunkTotal := 1 }).1
        { fileId := "g", fileName := "b.txt", fileHash := "h1" }).2.url
      = some ({ fileId := "f", url := "http://localhost:8000/files/h1.txt",
                message := "文件合并成功" } : MergeResponse).url :=
  c5_verify_after_merge hashLen
    (upload_chunk hashLen state0 [65] "f" "a.txt" 0 1 "h1" none).1
    { fileId := "f", fileName := "a.txt", fileHash := "h1", chunkTotal := 1 }
    { fileId := "f", url := "http://localhost:8000/files/h1.txt",
      message := "文件合并成功" }
    { fileId := "g", fileName := "b.txt", fileHash := "h1" }
    (by decide) (by decide) (by decide) (by decide)

/-- C6 counterexample: supplying the empty string as `chunkHash` — which
differs from the recomputed digest "h1" — does NOT fail: Python's
`if chunk_hash:` is falsy on `""`, so validation is skipped, the call
succeeds and the index is recorded. -/
theorem c6_empty_chunk_hash_skips_validation_cex :
    (upload_chunk hashLen state0 [65] "f" "a.txt" 0 1 "H"
      (some "")).2.isOk = true
    ∧ hashLen [65] ≠ ""
    ∧ 0 ∈ uploadedOf
        (upload_chunk hashLen state0 [65] "f" "a.txt" 0 1 "H" (some "")).1
        "f" := by decide

/-- C6 amended: a chunk-upload supplying a NON-EMPTY `chunkHash` that
differs from the recomputed digest fails with the per-chunk hash mismatch
error and leaves the session's recorded chunk set exactly as it was (an
empty `chunkHash` is treated as absent by Python truthiness). -/
theorem c6_chunk_hash_mismatch_rejected (hashFn : Bytes → String)
    (s : ServiceState) (content : Bytes) (fid fname : String) (i nt : Nat)
    (fh ch : String) (hne : ch ≠ "") (hbad : hashFn content ≠ ch) :
    (upload_chunk hashFn s content fid fname i nt fh (some ch)).2
      = Except.error (UploadError.chunkHashMismatch ch (hashFn content))
    ∧ uploadedOf
        (upload_chunk hashFn s content fid fname i nt fh (some ch)).1 fid
      = uploadedOf s fid := by
  rw [upload_chunk_badhash_spec hashFn s content fid fname i nt fh ch hne
    hbad]
  refine ⟨rfl, ?_⟩
  unfold uploadedOf
  cases hmd : dictGet s.file_metadata fid with
  | none => simp [hmd, dictGet_dictSet_self]
  | some md => simp [hmd, dictGet_dictSet_self]

/-- C6 witness: chunkHash "BAD" against digest "h1". -/
theorem c6_chunk_hash_mismatch_rejected_witness :
    (upload_chunk hashLen state0 [65] "f" "a.txt" 0 1 "H" (some "BAD")).2
      = Except.error (UploadError.chunkHashMismatch "BAD" (hashLen [65]))
    ∧ uploadedOf
        (upload_chunk hashLen state0 [65] "f" "a.txt" 0 1 "H"
          (some "BAD")).1 "f"
      = uploadedOf state0 "f" :=
  c6_chunk_hash_mismatch_rejected hashLen state0 [65] "f" "a.txt" 0 1 "H"
    "BAD" (by decide) (by decide)

/-- C7 counterexample: a session created with chunk count 2 that has
received only chunk 0 can still be merged successfully by a merge request
declaring `chunkTotal = 1` — completeness is judged against the request's
total, not the session's, so merge does not always fail while
`|receivedChunks| < chunkCount`. -/
theorem c7_premature_merge_can_succeed_cex :
    (dictGet (upload_chunk hashLen state0 [65] "f" "a.txt" 0 2 "h1"
        none).1.file_metadata "f").map FileMetadata.chunk_total = some 2
    ∧ (uploadedOf (upload_chunk hashLen state0 [65] "f" "a.txt" 0 2 "h1"
        none).1 "f").card = 1
    ∧ (merge_chunks hashLen
        (upload_chunk hashLen state0 [65] "f" "a.txt" 0 2 "h1" none).1
        { fileId := "f", fileName := "a.txt", fileHash := "h1",
          chunkTotal := 1 }).2.isOk = true := by decide

/-- C7 amended: for a merge request whose `chunkTotal` equals the session's
stored chunk count, merging while `|receivedChunks| < chunkCount` fails with
the incomplete-chunks error and returns the state completely unchanged. -/
theorem c7_incomplete_merge_fails (hashFn : Bytes → String)
    (s : ServiceState) (req : MergeRequest) (md : FileMetadata)
    (hget : dictGet s.file_metadata req.fileId = some md)
    (hreq : req.chunkTotal = md.chunk_total)
    (hlt : md.uploaded_chunks.card < md.chunk_total) :
    merge_chunks hashFn s req
      = (s, Except.error (UploadError.incompleteChunks
          md.uploaded_chunks.card req.chunkTotal)) :=
  merge2_incomplete hashFn s req md hget
    (by rw [hreq]; exact Nat.ne_of_lt hlt)

/-- C7 witness: session with chunk count 2 holding only chunk 0, merge
request with the session's total 2. -/
theorem c7_incomplete_merge_fails_witness :
    merge_chunks hashLen
        (upload_chunk hashLen state0 [65] "f" "a.txt" 0 2 "h1" none).1
        { fileId := "f", fileName := "a.txt", fileHash := "h1",
          chunkTotal := 2 }
      = ((upload_chunk hashLen state0 [65] "f" "a.txt" 0 2 "h1" none).1,
         Except.error (UploadError.incompleteChunks
           ({0} : Finset Nat).card 2)) :=
  c7_incomplete_merge_fails hashLen
    (upload_chunk hashLen state0 [65] "f" "a.txt" 0 2 "h1" none).1
    { fileId := "f", fileName := "a.txt", fileHash := "h1", chunkTotal := 2 }
    { file_id := "f", file_name := "a.txt", file_hash := "h1",
      chunk_total := 2, uploaded_chunks := {0}, status := "uploading" }
    (by decide) (by decide) (by decide)

/-- C9: a retried upload of an already-stored index with a mismatching
non-empty per-chunk hash raises, deletes the chunk's on-disk file, yet
leaves the index recorded; a subsequent merge whose completeness checks all
pass then fails with the defensive missing-chunk-file error — registry and
chunk store have diverged. -/
theorem c9_bad_retry_diverges_then_merge_fails (hashFn : Bytes → String)
    (s : ServiceState) (content : Bytes) (fid fname : String) (nt : Nat)
    (fh ch : String) (i : Nat) (md : FileMetadata) (req : MergeRequest)
    (hmd : dictGet s.file_metadata fid = some md)
    (hstored : (s.chunkFiles fid i).isSome = true)
    (hne : ch ≠ "") (hbad : hashFn content ≠ ch)
    (hreqid : req.fileId = fid)
    (hcard : md.uploaded_chunks.card = req.chunkTotal)
    (hall : ∀ j < req.chunkTotal, j ∈ md.uploaded_chunks)
    (hi : i < req.chunkTotal) :
    (upload_chunk hashFn s content fid fname i nt fh (some ch)).2
      = Except.error (UploadError.chunkHashMismatch ch (hashFn content))
    ∧ i ∈ uploadedOf
        (upload_chunk hashFn s content fid fname i nt fh (some ch)).1 fid
    ∧ (upload_chunk hashFn s content fid fname i nt fh
        (some ch)).1.chunkFiles fid i = none
    ∧ isMissingChunkFileErr (merge_chunks hashFn
        (upload_chunk hashFn s content fid fname i nt fh (some ch)).1
        req).2 = true := by
  have hspec := upload_chunk_badhash_spec hashFn s content fid fname i nt fh
    ch hne hbad
  have hfm : (upload_chunk hashFn s content fid fname i nt fh
      (some ch)).1.file_metadata = s.file_metadata := by
    rw [hspec]
    simp only [hmd]
    exact dictSet_eq_of_get _ _ _ hmd
  have hcfi : (upload_chunk hashFn s content fid fname i nt fh
      (some ch)).1.chunkFiles fid i = none := by
    rw [hspec]
    simp
  refine ⟨by rw [hspec], ?_, hcfi, ?_⟩
  · unfold uploadedOf
    rw [hfm, hmd]
    exact hall i hi
  · have hget2 : dictGet (upload_chunk hashFn s content fid fname i nt fh
        (some ch)).1.file_metadata req.fileId = some md := by
      rw [hreqid, hfm]; exact hmd
    have hnone2 : (upload_chunk hashFn s content fid fname i nt fh
        (some ch)).1.chunkFiles req.fileId i = none := by
      rw [hreqid]; exact hcfi
    exact (merge_chunks_missing_spec hashFn _ req md i hget2 hcard hall hi
      hnone2).1

/-- C9 witness: chunk 0 uploaded cleanly, retried with chunkHash "BAD",
then merged with total 1. -/
theorem c9_bad_retry_diverges_then_merge_fails_witness :
    (upload_chunk hashLen
        (upload_chunk hashLen state0 [65] "f" "a.txt" 0 1 "h1" none).1
        [66] "f" "a.txt" 0 1 "h1" (some "BAD")).2
      = Except.error (UploadError.chunkHashMismatch "BAD" (hashLen [66]))
    ∧ 0 ∈ uploadedOf (upload_chunk hashLen
        (upload_chunk hashLen state0 [65] "f" "a.txt" 0 1 "h1" none).1
        [66] "f" "a.txt" 0 1 "h1" (some "BAD")).1 "f"
    ∧ (upload_chunk hashLen
        (upload_chunk hashLen state0 [65] "f" "a.txt" 0 1 "h1" none).1
        [66] "f" "a.txt" 0 1 "h1" (some "BAD")).1.chunkFiles "f" 0 = none
    ∧ isMissingChunkFileErr (merge_chunks hashLen
        (upload_chunk hashLen
          (upload_chunk hashLen state0 [65] "f" "a.txt" 0 1 "h1" none).1
          [66] "f" "a.txt" 0 1 "h1" (some "BAD")).1
        { fileId := "f", fileName := "a.txt", fileHash := "h1",
          chunkTotal := 1 }).2 = true :=
  c9_bad_retry_diverges_then_merge_fails hashLen
    (upload_chunk hashLen state0 [65] "f" "a.txt" 0 1 "h1" none).1
    [66] "f" "a.txt" 1 "h1" "BAD" 0
    { file_id := "f", file_name := "a.txt", file_hash := "h1",
      chunk_total := 1, uploaded_chunks := {0}, status := "uploading" }
    { fileId := "f", fileName := "a.txt", fileHash := "h1", chunkTotal := 1 }
    (by decide) (by decide) (by decide) (by decide) (by decide) (by decide)
    (by decide) (by decide)

/-- C10: the outcome of a merge — acceptance or rejection, the error raised,
and the artifact directory it leaves behind — is unchanged when the
session's stored `chunk_total`, `file_hash` and `file_name` are replaced by
arbitrary other values: merge is driven by the request's `chunkTotal`,
`fileHash` and `fileName` together with the session's recorded chunk set
alone. -/
theorem c10_merge_uses_request_values (hashFn : Bytes → String)
    (s : ServiceState) (req : MergeRequest) (md : FileMetadata)
    (t2 : Nat) (h2 n2 : String)
    (hget : dictGet s.file_metadata req.fileId = some md) :
    (merge_chunks hashFn
        { s with
            file_metadata := dictSet s.file_metadata req.fileId
              { md with
                  chunk_total := t2, file_hash := h2, file_name := n2 } }
        req).2
      = (merge_chunks hashFn s req).2
    ∧ (merge_chunks hashFn
        { s with
            file_metadata := dictSet s.file_metadata req.fileId
              { md with
                  chunk_total := t2, file_hash := h2, file_name := n2 } }
        req).1.uploadFiles
      = (merge_chunks hashFn s req).1.uploadFiles := by
  have hget2 : dictGet ({ s with
      file_metadata := dictSet s.file_metadata req.fileId
        { md with
            chunk_total := t2, file_hash := h2,
            file_name := n2 } } : ServiceState).file_metadata req.fileId
      = some { md with
          chunk_total := t2, file_hash := h2,
          file_name := n2 } := dictGet_dictSet_self _ _ _
  by_cases hcard : md.uploaded_chunks.card = req.chunkTotal
  case neg =>
    rw [merge2_incomplete hashFn s req md hget hcard,
        merge2_incomplete hashFn _ req _ hget2 hcard]
    exact ⟨rfl, rfl⟩
  case pos =>
    rcases hfind : (List.range req.chunkTotal).find?
        (fun i => ! decide (i ∈ md.uploaded_chunks)) with _ | i
    case some =>
      rw [merge2_missing_index hashFn s req md i hget hcard hfind,
          merge2_missing_index hashFn _ req _ i hget2 hcard hfind]
      exact ⟨rfl, rfl⟩
    case none =>
      rcases hasm : (assembleChunks s.chunkFiles req.fileId
          (List.range req.chunkTotal)).2 with _ | j
      case some =>
        rw [merge2_missing_file hashFn s req md j hget hcard hfind hasm,
            merge2_missing_file hashFn _ req _ j hget2 hcard hfind hasm]
        exact ⟨rfl, rfl⟩
      case none =>
        by_cases hhash : hashFn (assembleChunks s.chunkFiles req.fileId
            (List.range req.chunkTotal)).1 = req.fileHash
        case pos =>
          rw [merge2_success hashFn s req md hget hcard hfind hasm hhash,
              merge2_success hashFn _ req _ hget2 hcard hfind hasm hhash]
          exact ⟨rfl, rfl⟩
        case neg =>
          rw [merge2_hashfail hashFn s req md hget hcard hfind hasm hhash,
              merge2_hashfail hashFn _ req _ hget2 hcard hfind hasm hhash]
          exact ⟨rfl, rfl⟩

/-- C10 witness: the stored session values are replaced by count 5, hash
"ZZZ" and name "x.bin"; the merge outcome is identical. -/
theorem c10_merge_uses_request_values_witness :
    (merge_chunks hashLen
        { (upload_chunk hashLen state0 [65] "f" "a.txt" 0 2 "h1" none).1 with
            file_metadata := dictSet
              (upload_chunk hashLen state0 [65] "f" "a.txt" 0 2 "h1"
                none).1.file_metadata "f"
              { file_id := "f", file_name := "x.bin", file_hash := "ZZZ",
                chunk_total := 5, uploaded_chunks := {0},
                status := "uploading" } }
        { fileId := "f", fileName := "a.txt", fileHash := "h1",
          chunkTotal := 1 }).2
      = (merge_chunks hashLen
          (upload_chunk hashLen state0 [65] "f" "a.txt" 0 2 "h1" none).1
          { fileId := "f", fileName := "a.txt", fileHash := "h1",
            chunkTotal := 1 }).2
    ∧ (merge_chunks hashLen
        { (upload_chunk hashLen state0 [65] "f" "a.txt" 0 2 "h1" none).1 with
            file_metadata := dictSet
              (upload_chunk hashLen state0 [65] "f" "a.txt" 0 2 "h1"
                none).1.file_metadata "f"
              { file_id := "f", file_name := "x.bin", file_hash := "ZZZ",
                chunk_total := 5, uploaded_chunks := {0},
                status := "uploading" } }
        { fileId := "f", fileName := "a.txt", fileHash := "h1",
          chunkTotal := 1 }).1.uploadFiles
      = (merge_chunks hashLen
          (upload_chunk hashLen state0 [65] "f" "a.txt" 0 2 "h1" none).1
          { fileId := "f", fileName := "a.txt", fileHash := "h1",
            chunkTotal := 1 }).1.uploadFiles :=
  c10_merge_uses_request_values hashLen
    (upload_chunk hashLen state0 [65] "f" "a.txt" 0 2 "h1" none).1
    { fileId := "f", fileName := "a.txt", fileHash := "h1", chunkTotal := 1 }
    { file_id := "f", file_name := "a.txt", file_hash := "h1",
      chunk_total := 2, uploaded_chunks := {0}, status := "uploading" }
    5 "ZZZ" "x.bin" (by decide)

end BigUpload
